import Mathlib

/-!
Verification of the reminder-dispatch core of the Debate-Calendar
application (`src/app/api/reminders/run/route.ts`, `src/lib/push.ts`,
and the subscription route).  Times are modelled as integers
(milliseconds since the epoch, as produced by `Date.getTime()`), and
reminder offsets as integers (minutes).  Nullable fields become
`Option`; JavaScript string truthiness (`!s` is true for the empty
string and for null/undefined) is modelled by `truthy`.
-/

namespace DebateCalendar

/-- JavaScript truthiness of an optional string: `null`/`undefined`
and the empty string are falsy, every other string is truthy. -/
def truthy : Option String → Bool
  | none => false
  | some s => !(s == "")

/-- An event row, as read by the dispatcher.  `start` is the instant
`event.start.getTime()` in milliseconds; `reminderOffsetMinutes` is the
nullable per-event default lead time. -/
structure Event where
  id : String
  title : String
  start : Int
  reminderOffsetMinutes : Option Int
  locationLabel : String
  locationLink : Option String
  deriving Repr, DecidableEq

/-- An email subscription row (`prisma.subscription`). -/
structure Subscription where
  id : Nat
  email : String
  eventId : String
  customOffsetMinutes : Option Int
  notified : Bool
  notifiedAt : Option Int
  deriving Repr, DecidableEq

/-- A push subscription row (`prisma.pushSubscription`). -/
structure PushSubscription where
  id : Nat
  endpoint : String
  p256dh : String
  auth : String
  expirationTime : Option Int
  eventId : String
  customOffsetMinutes : Option Int
  notified : Bool
  notifiedAt : Option Int
  deriving Repr, DecidableEq

/-- The persistent state the dispatcher reads and writes: the event
table and the two subscription tables. -/
structure DB where
  events : List Event
  subscriptions : List Subscription
  pushSubscriptions : List PushSubscription
  deriving Repr, DecidableEq

/-- The environment configuration the route reads
(`process.env.CRON_SECRET`, `SENDGRID_API_KEY`, `REMINDER_FROM_EMAIL`,
and the VAPID key pair read by `src/lib/push.ts`). -/
structure Config where
  cronSecret : Option String
  sendgridKey : Option String
  fromEmail : Option String
  vapidPublicKey : Option String
  vapidPrivateKey : Option String
  deriving Repr, DecidableEq

/-- `sub.customOffsetMinutes ?? event.reminderOffsetMinutes ?? 60`
(route.ts lines 42–43): the nullish-coalescing chain resolving the
effective reminder offset in minutes. -/
def effectiveOffset (custom eventDefault : Option Int) : Int :=
  custom.getD (eventDefault.getD 60)

/-- `new Date(event.start.getTime() - offset * 60000)` (route.ts
line 44): the opening instant of the reminder window. -/
def reminderAt (ev : Event) (offset : Int) : Int :=
  ev.start - offset * 60000

/-- The due test applied by both `due` and `pushDue` filters
(route.ts lines 40–54): the offset is resolved inline by the
nullish-coalescing chain, then `now >= reminderAt && now < event.start`. -/
def isDue (now : Int) (ev : Event) (custom : Option Int) : Bool :=
  let offset := custom.getD (ev.reminderOffsetMinutes.getD 60)
  let rAt := ev.start - offset * 60000
  decide (rAt ≤ now) && decide (now < ev.start)

/-- Outcome of one delivery attempt, mirroring the
`{ id, status: "sent" | "failed" }` records the route accumulates. -/
inductive SendStatus where
  | sent
  | failed
  deriving Repr, DecidableEq

/-- One entry of `emailResults` / `pushResults` in the route. -/
structure SendResult where
  id : Nat
  status : SendStatus
  deriving Repr, DecidableEq

/-- Modelled from the spec: the Prisma schema declaring the
`Subscription.event` relation is not among the sources; per the spec a
subscription whose referenced event is missing "cannot be evaluated
for due-ness and should be excluded/skipped", so the join produced by
`findMany({ where: { notified: false }, include: { event: true } })`
drops subscriptions whose `eventId` resolves to no stored event. -/
def pendingEmailJoin (db : DB) : List (Subscription × Event) :=
  (db.subscriptions.filter (fun s => !s.notified)).filterMap
    (fun s => (db.events.find? (fun e => e.id == s.eventId)).map (fun e => (s, e)))

/-- Modelled from the spec: as `pendingEmailJoin`, for the
`pushSubscription` table. -/
def pendingPushJoin (db : DB) : List (PushSubscription × Event) :=
  (db.pushSubscriptions.filter (fun s => !s.notified)).filterMap
    (fun s => (db.events.find? (fun e => e.id == s.eventId)).map (fun e => (s, e)))

/-- `const due = subscriptions.filter(...)` (route.ts lines 40–46). -/
def dueEmail (now : Int) (db : DB) : List (Subscription × Event) :=
  (pendingEmailJoin db).filter (fun p => isDue now p.2 p.1.customOffsetMinutes)

/-- `const pushDue = pushSubscriptions.filter(...)` (route.ts lines 48–54). -/
def duePush (now : Int) (db : DB) : List (PushSubscription × Event) :=
  (pendingPushJoin db).filter (fun p => isDue now p.2 p.1.customOffsetMinutes)

/-- `prisma.subscription.update({ where: { id }, data: { notified: true,
notifiedAt: new Date() } })` (route.ts lines 65–68). -/
def markEmailNotified (db : DB) (i : Nat) (t : Int) : DB :=
  { db with subscriptions := db.subscriptions.map fun s =>
      if s.id == i then { s with notified := true, notifiedAt := some t } else s }

/-- `prisma.pushSubscription.update({ ... })` (route.ts lines 100–103). -/
def markPushNotified (db : DB) (i : Nat) (t : Int) : DB :=
  { db with pushSubscriptions := db.pushSubscriptions.map fun s =>
      if s.id == i then { s with notified := true, notifiedAt := some t } else s }

/-- `Math.round(x / 60)` for an integer `x`: JavaScript rounds half
toward positive infinity, i.e. `Math.round(y) = ⌊y + 1/2⌋`. -/
def jsRound60 (x : Int) : Int :=
  (x + 30).fdiv 60

/-- The lead-time phrase of the email body (route.ts lines 138–140):
`~${Math.round(offsetMinutes / 60) || offsetMinutes} ${offsetMinutes >= 60 ?
"hours" : "minutes"}` — a rounded value of `0` is falsy, falling back to
the raw minutes. -/
def leadPhrase (offsetMinutes : Int) : String :=
  let r := jsRound60 offsetMinutes
  let shown := if r == 0 then offsetMinutes else r
  toString shown ++ " " ++ (if offsetMinutes ≥ 60 then "hours" else "minutes")

/-- The rendered email message (`buildMessage`, route.ts lines 123–155),
restricted to the fields the verified claims mention; the
locale-formatted `When:` line is elided. -/
structure EmailMessage where
  toAddr : String
  subject : String
  lead : String
  locationLabel : String
  deriving Repr, DecidableEq

/-- `buildMessage(sub.email, event, offset)` (route.ts line 61). -/
def buildMessage (email : String) (ev : Event) (offsetMinutes : Int) : EmailMessage :=
  { toAddr := email
    subject := "Debate reminder: " ++ ev.title
    lead := leadPhrase offsetMinutes
    locationLabel := ev.locationLabel }

/-- The push payload `{ title, body, url }` (route.ts lines 92–98). -/
structure PushPayload where
  title : String
  body : String
  url : String
  deriving Repr, DecidableEq

/-- The payload built for a due push subscription (route.ts lines
92–98): `url` is `event.location.link || "https://google.com"`
(JavaScript `||`: the empty string is falsy). -/
def buildPushPayload (ev : Event) (offsetMinutes : Int) : PushPayload :=
  { title := "Debate reminder: " ++ ev.title
    body := "Starts in ~"
      ++ (if offsetMinutes ≥ 60 then toString (jsRound60 offsetMinutes) ++ "h"
          else toString offsetMinutes ++ "m")
      ++ " · " ++ ev.locationLabel
    url := match ev.locationLink with
      | some l => if l == "" then "https://google.com" else l
      | none => "https://google.com" }

/-- `ensureVapidConfigured` throws iff `!publicKey || !privateKey`
(`src/lib/push.ts` lines 7–12). -/
def vapidConfigured (cfg : Config) : Bool :=
  truthy cfg.vapidPublicKey && truthy cfg.vapidPrivateKey

/-- `sendPush` (`src/lib/push.ts` lines 14–21): calls
`ensureVapidConfigured` first — throwing when the VAPID key pair is
missing, before any transmission — then hands the payload to
`webPush.sendNotification`, whose success is given by the delivery
oracle `deliveryOk`. -/
def sendPush (cfg : Config) (deliveryOk : Bool) : Except String Unit :=
  if !(vapidConfigured cfg) then Except.error "Missing VAPID keys"
  else if deliveryOk then Except.ok () else Except.error "push delivery error"

/-- The per-subscription email loop (route.ts lines 56–75): for each due
pair the message is built, then the send is attempted inside its own
try/catch — on success the subscription is marked notified and a
`sent` record is returned, on failure the row is left untouched and a
`failed` record is returned.  `emailOk i` is the delivery oracle:
whether `sgMail.send` succeeds for subscription `i`. -/
def runEmailBatch (now : Int) (emailOk : Nat → Bool) :
    DB → List (Subscription × Event) → DB × List SendResult × List EmailMessage
  | db, [] => (db, [], [])
  | db, (sub, ev) :: rest =>
    let offset := sub.customOffsetMinutes.getD (ev.reminderOffsetMinutes.getD 60)
    let msg := buildMessage sub.email ev offset
    if emailOk sub.id then
      let r := runEmailBatch now emailOk (markEmailNotified db sub.id now) rest
      (r.1, ⟨sub.id, SendStatus.sent⟩ :: r.2.1, msg :: r.2.2)
    else
      let r := runEmailBatch now emailOk db rest
      (r.1, ⟨sub.id, SendStatus.failed⟩ :: r.2.1, msg :: r.2.2)

/-- The per-subscription push loop (route.ts lines 76–110): `sendPush`
is called inside a per-subscription try/catch; a throw (including the
missing-VAPID-keys throw) yields a `failed` record for that
subscription only. -/
def runPushBatch (cfg : Config) (now : Int) (pushOk : Nat → Bool) :
    DB → List (PushSubscription × Event) → DB × List SendResult × List PushPayload
  | db, [] => (db, [], [])
  | db, (sub, ev) :: rest =>
    let offset := sub.customOffsetMinutes.getD (ev.reminderOffsetMinutes.getD 60)
    let payload := buildPushPayload ev offset
    match sendPush cfg (pushOk sub.id) with
    | Except.ok _ =>
      let r := runPushBatch cfg now pushOk (markPushNotified db sub.id now) rest
      (r.1, ⟨sub.id, SendStatus.sent⟩ :: r.2.1, payload :: r.2.2)
    | Except.error _ =>
      let r := runPushBatch cfg now pushOk db rest
      (r.1, ⟨sub.id, SendStatus.failed⟩ :: r.2.1, payload :: r.2.2)

/-- Result of the reminder-run route: a 500 configuration error, a 401
authorization error, or the success payload together with the final
store state. -/
inductive RunOutcome where
  | configError (db : DB)
  | unauthorized (db : DB)
  | ok (emailResults pushResults : List SendResult)
      (emailMessages : List EmailMessage) (pushPayloads : List PushPayload) (db : DB)
  deriving Repr, DecidableEq

/-- `Bearer ${cronSecret}` (route.ts line 22). -/
def bearerOf (cfg : Config) : String :=
  "Bearer " ++ cfg.cronSecret.getD ""

/-- The auth guard (route.ts lines 21–24): fails when the header is
absent/empty or differs from `Bearer ${cronSecret}`. -/
def checkAuth (cfg : Config) (authHeader : Option String) : Bool :=
  truthy authHeader && (authHeader == some (bearerOf cfg))

/-- The body of the run once both guards have passed (route.ts lines
28–110): select the due sets, process the email batch, then the push
batch. -/
def dispatch (cfg : Config) (now : Int) (emailOk pushOk : Nat → Bool) (db : DB) :
    List SendResult × List SendResult × List EmailMessage × List PushPayload × DB :=
  let er := runEmailBatch now emailOk db (dueEmail now db)
  let pr := runPushBatch cfg now pushOk er.1 (duePush now db)
  (er.2.1, pr.2.1, er.2.2, pr.2.2, pr.1)

/-- `GET` of `src/app/api/reminders/run/route.ts`: the configuration
guard (lines 14–19), the bearer-token guard (lines 21–24), then the
dispatch.  `now` is `new Date()`; the delivery oracles stand for the
external adapters. -/
def runOnce (cfg : Config) (authHeader : Option String) (now : Int)
    (emailOk pushOk : Nat → Bool) (db : DB) : RunOutcome :=
  if !(truthy cfg.cronSecret) || !(truthy cfg.sendgridKey) || !(truthy cfg.fromEmail) then
    RunOutcome.configError db
  else if !(checkAuth cfg authHeader) then
    RunOutcome.unauthorized db
  else
    let d := dispatch cfg now emailOk pushOk db
    RunOutcome.ok d.1 d.2.1 d.2.2.1 d.2.2.2.1 d.2.2.2.2

/-- The `sent` field of the JSON response (route.ts lines 114–116). -/
def sentCount (emailResults pushResults : List SendResult) : Nat :=
  (emailResults.filter (fun r => r.status == SendStatus.sent)).length
    + (pushResults.filter (fun r => r.status == SendStatus.sent)).length

/-- The `failed` field of the JSON response (route.ts lines 117–119). -/
def failedCount (emailResults pushResults : List SendResult) : Nat :=
  (emailResults.filter (fun r => r.status == SendStatus.failed)).length
    + (pushResults.filter (fun r => r.status == SendStatus.failed)).length

/-- The `processed` field of the JSON response (route.ts line 113). -/
def processedCount (emailResults pushResults : List SendResult) : Nat :=
  emailResults.length + pushResults.length

/-- The store state an outcome leaves behind. -/
def dbOf : RunOutcome → DB
  | RunOutcome.configError db => db
  | RunOutcome.unauthorized db => db
  | RunOutcome.ok _ _ _ _ db => db

/-- The `pushSubscription` part of the subscribe/cancel request body. -/
structure PushSubPayload where
  endpoint : String
  p256dh : String
  auth : String
  expirationTime : Option Int
  deriving Repr, DecidableEq

/-- The `Payload` body type of the subscription route. -/
structure SubscribePayload where
  email : Option String
  eventId : Option String
  customOffsetMinutes : Option Int
  pushSubscription : Option (PushSubPayload)
  deriving Repr, DecidableEq

/-- Responses of the subscription route. -/
inductive ApiResponse where
  | badRequest
  | notFound
  | okTrue
  deriving Repr, DecidableEq

/-- `expirationTime ? BigInt(expirationTime) : null` (subscription
route): the number `0` is falsy, so it is stored as null. -/
def numToStored : Option Int → Option Int
  | none => none
  | some t => if t == 0 then none else some t

/-- `prisma.subscription.upsert` of the subscription route `POST`
(lines 29–41): if a row with this `(email, eventId)` key exists, update
it — resetting `notified` to false and clearing `notifiedAt` — else
create a fresh row.  Modelled from the spec for the create branch's
defaults (the Prisma schema is not among the sources): a fresh
subscription is not yet notified, so `notified = false` and
`notifiedAt` is null. -/
def upsertEmailSubscription (db : DB) (freshId : Nat) (email eventId : String)
    (custom : Option Int) : DB :=
  if db.subscriptions.any (fun s => s.email == email && s.eventId == eventId) then
    { db with subscriptions := db.subscriptions.map fun s =>
        if s.email == email && s.eventId == eventId then
          { s with customOffsetMinutes := custom, notified := false, notifiedAt := none }
        else s }
  else
    { db with subscriptions := db.subscriptions ++
        [{ id := freshId, email := email, eventId := eventId,
           customOffsetMinutes := custom, notified := false, notifiedAt := none }] }

/-- `prisma.pushSubscription.upsert` of the subscription route `POST`
(lines 46–64); create-branch defaults modelled from the spec as in
`upsertEmailSubscription`. -/
def upsertPushSubscription (db : DB) (freshId : Nat) (ps : PushSubPayload)
    (eventId : String) (custom : Option Int) : DB :=
  if db.pushSubscriptions.any (fun s => s.endpoint == ps.endpoint && s.eventId == eventId) then
    { db with pushSubscriptions := db.pushSubscriptions.map fun s =>
        if s.endpoint == ps.endpoint && s.eventId == eventId then
          { s with p256dh := ps.p256dh, auth := ps.auth,
                   expirationTime := numToStored ps.expirationTime,
                   customOffsetMinutes := custom, notified := false, notifiedAt := none }
        else s }
  else
    { db with pushSubscriptions := db.pushSubscriptions ++
        [{ id := freshId, endpoint := ps.endpoint, p256dh := ps.p256dh, auth := ps.auth,
           expirationTime := numToStored ps.expirationTime, eventId := eventId,
           customOffsetMinutes := custom, notified := false, notifiedAt := none }] }

/-- `POST` of the subscription route (lines 17–68): reject a missing
(or empty, by JavaScript truthiness) `eventId` with 400, a non-existent
event with 404, then upsert whichever channel records the body carries. -/
def subscribePost (db : DB) (freshEmailId freshPushId : Nat)
    (p : SubscribePayload) : ApiResponse × DB :=
  if !(truthy p.eventId) then (ApiResponse.badRequest, db)
  else
    let eid := p.eventId.getD ""
    match db.events.find? (fun e => e.id == eid) with
    | none => (ApiResponse.notFound, db)
    | some _ =>
      let db1 :=
        if truthy p.email then
          upsertEmailSubscription db freshEmailId (p.email.getD "") eid p.customOffsetMinutes
        else db
      let db2 :=
        match p.pushSubscription with
        | some ps => upsertPushSubscription db1 freshPushId ps eid p.customOffsetMinutes
        | none => db1
      (ApiResponse.okTrue, db2)

/-- `DELETE` of the subscription route (lines 70–89): reject a missing
`eventId` with 400, then `deleteMany` the matching email and/or push
rows and answer `{ ok: true }`.  The handler receives the request's
`authorization` header but never reads it. -/
def subscribeDelete (authHeader : Option String) (p : SubscribePayload)
    (db : DB) : ApiResponse × DB :=
  if !(truthy p.eventId) then (ApiResponse.badRequest, db)
  else
    let eid := p.eventId.getD ""
    let db1 :=
      if truthy p.email then
        { db with subscriptions :=
            db.subscriptions.filter fun s => !(s.email == p.email.getD "" && s.eventId == eid) }
      else db
    let db2 :=
      match p.pushSubscription with
      | some ps =>
        if !(ps.endpoint == "") then
          { db1 with pushSubscriptions :=
              db1.pushSubscriptions.filter fun s => !(s.endpoint == ps.endpoint && s.eventId == eid) }
        else db1
      | none => db1
    (ApiResponse.okTrue, db2)

/-- The invariant of claim C9: a notified subscription carries a
notification timestamp, on both channels. -/
def SubscriptionInvariant (db : DB) : Prop :=
  (∀ s ∈ db.subscriptions, s.notified = true → s.notifiedAt.isSome) ∧
  (∀ s ∈ db.pushSubscriptions, s.notified = true → s.notifiedAt.isSome)

/-! ### Helper lemmas about the batches -/

theorem runEmailBatch_messages_eq (now : Int) (emailOk : Nat → Bool) :
    ∀ (l : List (Subscription × Event)) (db : DB),
      (runEmailBatch now emailOk db l).2.2 =
        l.map (fun p => buildMessage p.1.email p.2
          (effectiveOffset p.1.customOffsetMinutes p.2.reminderOffsetMinutes))
  | [], _ => rfl
  | (sub, ev) :: rest, db => by
    simp only [runEmailBatch, effectiveOffset, List.map_cons]
    by_cases h : emailOk sub.id = true
    · simp [h, runEmailBatch_messages_eq now emailOk rest, effectiveOffset]
    · simp [h, runEmailBatch_messages_eq now emailOk rest, effectiveOffset]

theorem runPushBatch_payloads_eq (cfg : Config) (now : Int) (pushOk : Nat → Bool) :
    ∀ (l : List (PushSubscription × Event)) (db : DB),
      (runPushBatch cfg now pushOk db l).2.2 =
        l.map (fun p => buildPushPayload p.2
          (effectiveOffset p.1.customOffsetMinutes p.2.reminderOffsetMinutes))
  | [], _ => rfl
  | (sub, ev) :: rest, db => by
    simp only [runPushBatch, effectiveOffset, List.map_cons]
    cases h : sendPush cfg (pushOk sub.id) with
    | ok _ => simp [runPushBatch_payloads_eq cfg now pushOk rest, effectiveOffset]
    | error _ => simp [runPushBatch_payloads_eq cfg now pushOk rest, effectiveOffset]

theorem dueEmail_mem {now : Int} {db : DB} {p : Subscription × Event}
    (h : p ∈ dueEmail now db) :
    p.1 ∈ db.subscriptions ∧ p.1.notified = false ∧
      db.events.find? (fun e => e.id == p.1.eventId) = some p.2 := by
  have h1 : p ∈ pendingEmailJoin db := (List.mem_filter.mp h).1
  obtain ⟨s, hs, hmap⟩ := List.mem_filterMap.mp h1
  have hsf := List.mem_filter.mp hs
  cases hfind : db.events.find? (fun e => e.id == s.eventId) with
  | none => rw [hfind] at hmap; simp at hmap
  | some e =>
    rw [hfind] at hmap
    simp only [Option.map_some'] at hmap
    cases hmap
    exact ⟨hsf.1, by simpa using hsf.2, hfind⟩

theorem duePush_mem {now : Int} {db : DB} {p : PushSubscription × Event}
    (h : p ∈ duePush now db) :
    p.1 ∈ db.pushSubscriptions ∧ p.1.notified = false ∧
      db.events.find? (fun e => e.id == p.1.eventId) = some p.2 := by
  have h1 : p ∈ pendingPushJoin db := (List.mem_filter.mp h).1
  obtain ⟨s, hs, hmap⟩ := List.mem_filterMap.mp h1
  have hsf := List.mem_filter.mp hs
  cases hfind : db.events.find? (fun e => e.id == s.eventId) with
  | none => rw [hfind] at hmap; simp at hmap
  | some e =>
    rw [hfind] at hmap
    simp only [Option.map_some'] at hmap
    cases hmap
    exact ⟨hsf.1, by simpa using hsf.2, hfind⟩

theorem emailResult_ids (now : Int) (emailOk : Nat → Bool) :
    ∀ (l : List (Subscription × Event)) (db : DB),
      ∀ r ∈ (runEmailBatch now emailOk db l).2.1, ∃ p ∈ l, p.1.id = r.id
  | [], _ => by intro r hr; simp [runEmailBatch] at hr
  | (sub, ev) :: rest, db => by
    intro r hr
    simp only [runEmailBatch] at hr
    by_cases h : emailOk sub.id = true
    · simp only [h, if_true] at hr
      rcases List.mem_cons.mp hr with hhead | htail
      · exact ⟨(sub, ev), List.mem_cons_self _ _, by rw [hhead]⟩
      · obtain ⟨p, hp, hpid⟩ := emailResult_ids now emailOk rest _ r htail
        exact ⟨p, List.mem_cons_of_mem _ hp, hpid⟩
    · simp only [h, if_false] at hr
      rcases List.mem_cons.mp hr with hhead | htail
      · exact ⟨(sub, ev), List.mem_cons_self _ _, by rw [hhead]⟩
      · obtain ⟨p, hp, hpid⟩ := emailResult_ids now emailOk rest _ r htail
        exact ⟨p, List.mem_cons_of_mem _ hp, hpid⟩

theorem pushResult_ids (cfg : Config) (now : Int) (pushOk : Nat → Bool) :
    ∀ (l : List (PushSubscription × Event)) (db : DB),
      ∀ r ∈ (runPushBatch cfg now pushOk db l).2.1, ∃ p ∈ l, p.1.id = r.id
  | [], _ => by intro r hr; simp [runPushBatch] at hr
  | (sub, ev) :: rest, db => by
    intro r hr
    simp only [runPushBatch] at hr
    cases h : sendPush cfg (pushOk sub.id) with
    | ok u =>
      rw [h] at hr
      rcases List.mem_cons.mp hr with hhead | htail
      · exact ⟨(sub, ev), List.mem_cons_self _ _, by rw [hhead]⟩
      · obtain ⟨p, hp, hpid⟩ := pushResult_ids cfg now pushOk rest _ r htail
        exact ⟨p, List.mem_cons_of_mem _ hp, hpid⟩
    | error msg =>
      rw [h] at hr
      rcases List.mem_cons.mp hr with hhead | htail
      · exact ⟨(sub, ev), List.mem_cons_self _ _, by rw [hhead]⟩
      · obtain ⟨p, hp, hpid⟩ := pushResult_ids cfg now pushOk rest _ r htail
        exact ⟨p, List.mem_cons_of_mem _ hp, hpid⟩

/-! ### Claim theorems (first group) -/

/-- C1: the due test selects a subscription iff
`reminderAt ≤ now < event.start`, where `reminderAt` is the event start
minus the effective offset converted to milliseconds — a half-open
window opening at `reminderAt` and closing at the event start. -/
theorem isDue_window (now : Int) (ev : Event) (custom : Option Int) :
    isDue now ev custom = true ↔
      reminderAt ev (effectiveOffset custom ev.reminderOffsetMinutes) ≤ now ∧
        now < ev.start := by
  simp [isDue, reminderAt, effectiveOffset]

/-- C4: the effective offset used by the due test and by both message
renderings resolves as subscription override, else event default, else
60 minutes; in particular `customOffsetMinutes = 30` beats
`reminderOffsetMinutes = 120`. -/
theorem effectiveOffset_resolution :
    (∀ (x : Int) (d : Option Int), effectiveOffset (some x) d = x) ∧
    (∀ (y : Int), effectiveOffset none (some y) = y) ∧
    effectiveOffset none none = 60 ∧
    effectiveOffset (some 30) (some 120) = 30 ∧
    (∀ (now : Int) (ev : Event) (custom : Option Int),
      isDue now ev custom =
        (decide (reminderAt ev (effectiveOffset custom ev.reminderOffsetMinutes) ≤ now)
          && decide (now < ev.start))) ∧
    (∀ (now : Int) (emailOk : Nat → Bool) (db : DB) (l : List (Subscription × Event)),
      (runEmailBatch now emailOk db l).2.2 =
        l.map (fun p => buildMessage p.1.email p.2
          (effectiveOffset p.1.customOffsetMinutes p.2.reminderOffsetMinutes))) ∧
    (∀ (cfg : Config) (now : Int) (pushOk : Nat → Bool) (db : DB)
        (l : List (PushSubscription × Event)),
      (runPushBatch cfg now pushOk db l).2.2 =
        l.map (fun p => buildPushPayload p.2
          (effectiveOffset p.1.customOffsetMinutes p.2.reminderOffsetMinutes))) :=
  ⟨fun _ _ => rfl, fun _ => rfl, rfl, rfl, fun _ _ _ => rfl,
   fun now emailOk db l => runEmailBatch_messages_eq now emailOk l db,
   fun cfg now pushOk db l => runPushBatch_payloads_eq cfg now pushOk l db⟩

/-- C5: an effective offset of zero or a negative one puts `reminderAt`
at or after the event start, so the half-open window is empty and the
subscription is never due, for any `now`. -/
theorem nonpositive_offset_never_due (now : Int) (ev : Event) (custom : Option Int)
    (h : effectiveOffset custom ev.reminderOffsetMinutes ≤ 0) :
    isDue now ev custom = false := by
  have hmul : effectiveOffset custom ev.reminderOffsetMinutes * 60000 ≤ 0 :=
    mul_nonpos_of_nonpos_of_nonneg h (by norm_num)
  simp only [effectiveOffset] at hmul
  simp only [isDue, Bool.and_eq_false_iff, decide_eq_false_iff_not, not_le, not_lt]
  by_cases h1 : ev.start - custom.getD (ev.reminderOffsetMinutes.getD 60) * 60000 ≤ now
  · right
    omega
  · left
    omega

/-- Witness for C5 at a concrete zero-offset subscription. -/
theorem nonpositive_offset_never_due_witness :
    effectiveOffset (some 0)
        (Event.reminderOffsetMinutes
          { id := "e1", title := "T", start := 1000000, reminderOffsetMinutes := none,
            locationLabel := "Hall", locationLink := none }) ≤ 0 ∧
    isDue 999999
      { id := "e1", title := "T", start := 1000000, reminderOffsetMinutes := none,
        locationLabel := "Hall", locationLink := none } (some 0) = false :=
  ⟨by decide,
   nonpositive_offset_never_due 999999
     { id := "e1", title := "T", start := 1000000, reminderOffsetMinutes := none,
       locationLabel := "Hall", locationLink := none } (some 0) (by decide)⟩

/-! ### Guard helpers and concrete fixtures -/

theorem runOnce_ok_of_guards {cfg : Config} {a : Option String}
    (hcfg : (truthy cfg.cronSecret && truthy cfg.sendgridKey && truthy cfg.fromEmail) = true)
    (hauth : checkAuth cfg a = true) (now : Int) (emailOk pushOk : Nat → Bool) (db : DB) :
    runOnce cfg a now emailOk pushOk db =
      RunOutcome.ok (dispatch cfg now emailOk pushOk db).1
        (dispatch cfg now emailOk pushOk db).2.1
        (dispatch cfg now emailOk pushOk db).2.2.1
        (dispatch cfg now emailOk pushOk db).2.2.2.1
        (dispatch cfg now emailOk pushOk db).2.2.2.2 := by
  simp only [Bool.and_eq_true] at hcfg
  obtain ⟨⟨h1, h2⟩, h3⟩ := hcfg
  simp [runOnce, h1, h2, h3, hauth]

theorem runOnce_ok_inv {cfg : Config} {a : Option String} {now : Int}
    {emailOk pushOk : Nat → Bool} {db : DB} {er pr : List SendResult}
    {ems : List EmailMessage} {pps : List PushPayload} {db' : DB}
    (h : runOnce cfg a now emailOk pushOk db = RunOutcome.ok er pr ems pps db') :
    er = (dispatch cfg now emailOk pushOk db).1 ∧
    pr = (dispatch cfg now emailOk pushOk db).2.1 ∧
    db' = (dispatch cfg now emailOk pushOk db).2.2.2.2 := by
  unfold runOnce at h
  split at h
  · exact absurd h (by simp)
  · split at h
    · exact absurd h (by simp)
    · simp only [RunOutcome.ok.injEq] at h
      exact ⟨h.1.symm, h.2.1.symm, h.2.2.2.2.symm⟩

def cfgGood : Config :=
  { cronSecret := some "s", sendgridKey := some "k", fromEmail := some "f@x",
    vapidPublicKey := some "pub", vapidPrivateKey := some "priv" }

def cfgNoCron : Config :=
  { cronSecret := none, sendgridKey := some "k", fromEmail := some "f@x",
    vapidPublicKey := some "pub", vapidPrivateKey := some "priv" }

def cfgNoVapid : Config :=
  { cronSecret := some "s", sendgridKey := some "k", fromEmail := some "f@x",
    vapidPublicKey := none, vapidPrivateKey := some "priv" }

def emptyDB : DB :=
  { events := [], subscriptions := [], pushSubscriptions := [] }

def evA : Event :=
  { id := "e1", title := "Final", start := 3600000, reminderOffsetMinutes := none,
    locationLabel := "Hall", locationLink := none }

def subA : Subscription :=
  { id := 1, email := "a@b", eventId := "e1", customOffsetMinutes := none,
    notified := false, notifiedAt := none }

def subB : Subscription :=
  { id := 2, email := "c@d", eventId := "e1", customOffsetMinutes := none,
    notified := false, notifiedAt := none }

def pushSubA : PushSubscription :=
  { id := 1, endpoint := "ep1", p256dh := "p", auth := "au", expirationTime := none,
    eventId := "e1", customOffsetMinutes := none, notified := false, notifiedAt := none }

def dbPush : DB :=
  { events := [evA], subscriptions := [], pushSubscriptions := [pushSubA] }

/-! ### Claim theorems (second group) -/

/-- C7: a missing secret (CRON_SECRET, SENDGRID_API_KEY, or
REMINDER_FROM_EMAIL) yields the 500 configuration error with nothing
dispatched; with secrets present, a missing/invalid bearer credential
yields the 401 authorization error with no subscriptions read; only
when both checks pass does the run proceed to dispatch. -/
theorem run_guards (cfg : Config) (authHeader : Option String) (now : Int)
    (emailOk pushOk : Nat → Bool) (db : DB) :
    ((truthy cfg.cronSecret && truthy cfg.sendgridKey && truthy cfg.fromEmail) = false →
      runOnce cfg authHeader now emailOk pushOk db = RunOutcome.configError db) ∧
    ((truthy cfg.cronSecret && truthy cfg.sendgridKey && truthy cfg.fromEmail) = true →
      checkAuth cfg authHeader = false →
      runOnce cfg authHeader now emailOk pushOk db = RunOutcome.unauthorized db) ∧
    ((truthy cfg.cronSecret && truthy cfg.sendgridKey && truthy cfg.fromEmail) = true →
      checkAuth cfg authHeader = true →
      runOnce cfg authHeader now emailOk pushOk db =
        RunOutcome.ok (dispatch cfg now emailOk pushOk db).1
          (dispatch cfg now emailOk pushOk db).2.1
          (dispatch cfg now emailOk pushOk db).2.2.1
          (dispatch cfg now emailOk pushOk db).2.2.2.1
          (dispatch cfg now emailOk pushOk db).2.2.2.2) := by
  refine ⟨fun hc => ?_, fun hc ha => ?_, fun hc ha => ?_⟩
  · unfold runOnce
    cases h1 : truthy cfg.cronSecret <;> cases h2 : truthy cfg.sendgridKey <;>
      cases h3 : truthy cfg.fromEmail <;> simp_all
  · unfold runOnce
    simp only [Bool.and_eq_true] at hc
    simp [hc.1.1, hc.1.2, hc.2, ha]
  · exact runOnce_ok_of_guards hc ha now emailOk pushOk db

/-- Witness for C7: each of the three guard outcomes at concrete
configurations and credentials. -/
theorem run_guards_witness :
    runOnce cfgNoCron (some "Bearer s") 0 (fun _ => true) (fun _ => true) emptyDB =
      RunOutcome.configError emptyDB ∧
    runOnce cfgGood none 0 (fun _ => true) (fun _ => true) emptyDB =
      RunOutcome.unauthorized emptyDB ∧
    runOnce cfgGood (some "Bearer s") 0 (fun _ => true) (fun _ => true) emptyDB =
      RunOutcome.ok [] [] [] [] emptyDB := by
  refine ⟨(run_guards cfgNoCron (some "Bearer s") 0 _ _ emptyDB).1 (by decide),
    (run_guards cfgGood none 0 _ _ emptyDB).2.1 (by decide) (by decide), ?_⟩
  rw [(run_guards cfgGood (some "Bearer s") 0 (fun _ => true) (fun _ => true) emptyDB).2.2
    (by decide) (by decide)]
  rfl

/-- C10: the subscription cancellation handler never reads the
authorization header — two requests differing only in that header get
the same response and leave the same store — and for a request carrying
an eventId and an email it deletes the matching email subscriptions and
answers ok. -/
theorem delete_ignores_authorization :
    (∀ (a1 a2 : Option String) (p : SubscribePayload) (db : DB),
      subscribeDelete a1 p db = subscribeDelete a2 p db) ∧
    (∀ (a : Option String) (em eid : String) (c : Option Int) (db : DB),
      eid ≠ "" → em ≠ "" →
      subscribeDelete a
          { email := some em, eventId := some eid, customOffsetMinutes := c,
            pushSubscription := none } db =
        (ApiResponse.okTrue,
         { db with subscriptions :=
             db.subscriptions.filter fun s => !(s.email == em && s.eventId == eid) })) := by
  constructor
  · intro a1 a2 p db
    rfl
  · intro a em eid c db heid hem
    have h1 : (eid == "") = false := by simpa using heid
    have h2 : (em == "") = false := by simpa using hem
    simp [subscribeDelete, truthy, h1, h2]

/-- Witness for C10 at a concrete store and request. -/
theorem delete_ignores_authorization_witness :
    subscribeDelete (some "Bearer whatever")
        { email := some "a@b", eventId := some "e1", customOffsetMinutes := none,
          pushSubscription := none }
        { events := [evA], subscriptions := [subA, subB], pushSubscriptions := [] } =
      subscribeDelete none
        { email := some "a@b", eventId := some "e1", customOffsetMinutes := none,
          pushSubscription := none }
        { events := [evA], subscriptions := [subA, subB], pushSubscriptions := [] } ∧
    subscribeDelete none
        { email := some "a@b", eventId := some "e1", customOffsetMinutes := none,
          pushSubscription := none }
        { events := [evA], subscriptions := [subA, subB], pushSubscriptions := [] } =
      (ApiResponse.okTrue,
       { events := [evA], subscriptions := [subB], pushSubscriptions := [] }) := by
  constructor
  · exact delete_ignores_authorization.1 (some "Bearer whatever") none _ _
  · rw [delete_ignores_authorization.2 none "a@b" "e1" none
      { events := [evA], subscriptions := [subA, subB], pushSubscriptions := [] }
      (by decide) (by decide)]
    rfl

/-- C8 counterexample: with the VAPID key pair unconfigured but the
email secrets present, a run over one due push subscription completes
normally (no whole-run fatal error) and the missing-keys throw is
caught per subscription and counted in the `failed` tally — refuting
the claim that this failure mode is a fatal setup error for the run
rather than a per-message tally entry. -/
theorem push_vapid_missing_counterexample :
    runOnce cfgNoVapid (some "Bearer s") 0 (fun _ => true) (fun _ => true) dbPush =
      RunOutcome.ok [] [⟨1, SendStatus.failed⟩] [] [buildPushPayload evA 60] dbPush ∧
    failedCount [] [⟨1, SendStatus.failed⟩] = 1 := by
  constructor
  · rfl
  · rfl

/-- C8 amended: a missing VAPID key pair makes `sendPush` throw before
any transmission, so no push is delivered and no row is marked
notified; but the throw is caught by the dispatcher's per-subscription
try/catch, so each due push subscription is individually recorded as
`failed` (counted in the failed tally) and the run completes normally. -/
theorem push_vapid_missing_per_subscription (cfg : Config) (now : Int)
    (pushOk : Nat → Bool) (hv : vapidConfigured cfg = false) :
    (∀ d : Bool, sendPush cfg d = Except.error "Missing VAPID keys") ∧
    ∀ (l : List (PushSubscription × Event)) (db : DB),
      (runPushBatch cfg now pushOk db l).2.1 =
        l.map (fun p => ⟨p.1.id, SendStatus.failed⟩) ∧
      (runPushBatch cfg now pushOk db l).1 = db := by
  have hs : ∀ d : Bool, sendPush cfg d = Except.error "Missing VAPID keys" := by
    intro d
    simp [sendPush, hv]
  refine ⟨hs, ?_⟩
  intro l
  induction l with
  | nil => intro db; exact ⟨rfl, rfl⟩
  | cons p rest ih =>
    intro db
    obtain ⟨sub, ev⟩ := p
    simp only [runPushBatch, hs (pushOk sub.id), List.map_cons]
    exact ⟨by simp [(ih db).1], (ih db).2⟩

/-- Witness for the amended C8 at a concrete unconfigured setup. -/
theorem push_vapid_missing_per_subscription_witness :
    vapidConfigured cfgNoVapid = false ∧
    (runPushBatch cfgNoVapid 0 (fun _ => true) dbPush [(pushSubA, evA)]).2.1 =
      [⟨1, SendStatus.failed⟩] ∧
    (runPushBatch cfgNoVapid 0 (fun _ => true) dbPush [(pushSubA, evA)]).1 = dbPush :=
  ⟨by decide,
   by
     have h := (push_vapid_missing_per_subscription cfgNoVapid 0 (fun _ => true)
       (by decide)).2 [(pushSubA, evA)] dbPush
     exact ⟨h.1, h.2⟩⟩

/-! ### Notified-state lemmas -/

/-- Every email subscription bearing id `i` is already notified. -/
def EmailMarked (i : Nat) (db : DB) : Prop :=
  ∀ s ∈ db.subscriptions, s.id = i → s.notified = true

/-- Every push subscription bearing id `i` is already notified. -/
def PushMarked (i : Nat) (db : DB) : Prop :=
  ∀ s ∈ db.pushSubscriptions, s.id = i → s.notified = true

theorem dispatch_components (cfg : Config) (now : Int) (emailOk pushOk : Nat → Bool)
    (db : DB) :
    dispatch cfg now emailOk pushOk db =
      ((runEmailBatch now emailOk db (dueEmail now db)).2.1,
       (runPushBatch cfg now pushOk (runEmailBatch now emailOk db (dueEmail now db)).1
         (duePush now db)).2.1,
       (runEmailBatch now emailOk db (dueEmail now db)).2.2,
       (runPushBatch cfg now pushOk (runEmailBatch now emailOk db (dueEmail now db)).1
         (duePush now db)).2.2,
       (runPushBatch cfg now pushOk (runEmailBatch now emailOk db (dueEmail now db)).1
         (duePush now db)).1) := rfl

theorem emailMarked_mark_self (db : DB) (i : Nat) (t : Int) :
    EmailMarked i (markEmailNotified db i t) := by
  intro s hs hid
  simp only [markEmailNotified, List.mem_map] at hs
  obtain ⟨x, _, hfx⟩ := hs
  by_cases h : x.id = i
  · rw [← hfx]
    simp [h]
  · have hbeq : (x.id == i) = false := beq_eq_false_iff_ne.mpr h
    rw [← hfx] at hid
    simp [hbeq] at hid
    exact absurd hid h

theorem emailMarked_mark {i : Nat} (db : DB) (j : Nat) (t : Int)
    (h : EmailMarked i db) : EmailMarked i (markEmailNotified db j t) := by
  intro s hs hid
  simp only [markEmailNotified, List.mem_map] at hs
  obtain ⟨x, hx, hfx⟩ := hs
  by_cases hj : x.id = j
  · rw [← hfx]
    simp [hj]
  · have hbeq : (x.id == j) = false := beq_eq_false_iff_ne.mpr hj
    rw [← hfx] at hid ⊢
    simp only [hbeq, if_neg, Bool.false_eq_true, ite_false] at hid ⊢
    exact h x hx hid

theorem pushMarked_mark_self (db : DB) (i : Nat) (t : Int) :
    PushMarked i (markPushNotified db i t) := by
  intro s hs hid
  simp only [markPushNotified, List.mem_map] at hs
  obtain ⟨x, _, hfx⟩ := hs
  by_cases h : x.id = i
  · rw [← hfx]
    simp [h]
  · have hbeq : (x.id == i) = false := beq_eq_false_iff_ne.mpr h
    rw [← hfx] at hid
    simp [hbeq] at hid
    exact absurd hid h

theorem pushMarked_mark {i : Nat} (db : DB) (j : Nat) (t : Int)
    (h : PushMarked i db) : PushMarked i (markPushNotified db j t) := by
  intro s hs hid
  simp only [markPushNotified, List.mem_map] at hs
  obtain ⟨x, hx, hfx⟩ := hs
  by_cases hj : x.id = j
  · rw [← hfx]
    simp [hj]
  · have hbeq : (x.id == j) = false := beq_eq_false_iff_ne.mpr hj
    rw [← hfx] at hid ⊢
    simp only [hbeq, if_neg, Bool.false_eq_true, ite_false] at hid ⊢
    exact h x hx hid

theorem runEmailBatch_pushSubscriptions (now : Int) (emailOk : Nat → Bool) :
    ∀ (l : List (Subscription × Event)) (db : DB),
      (runEmailBatch now emailOk db l).1.pushSubscriptions = db.pushSubscriptions
  | [], _ => rfl
  | (sub, ev) :: rest, db => by
    simp only [runEmailBatch]
    by_cases h : emailOk sub.id = true
    · simp only [h, if_true]
      exact runEmailBatch_pushSubscriptions now emailOk rest _
    · simp only [h, Bool.false_eq_true, if_false]
      exact runEmailBatch_pushSubscriptions now emailOk rest _

theorem runPushBatch_subscriptions (cfg : Config) (now : Int) (pushOk : Nat → Bool) :
    ∀ (l : List (PushSubscription × Event)) (db : DB),
      (runPushBatch cfg now pushOk db l).1.subscriptions = db.subscriptions
  | [], _ => rfl
  | (sub, ev) :: rest, db => by
    simp only [runPushBatch]
    cases h : sendPush cfg (pushOk sub.id) with
    | ok _ => exact runPushBatch_subscriptions cfg now pushOk rest _
    | error _ => exact runPushBatch_subscriptions cfg now pushOk rest _

theorem emailMarked_batch (now : Int) (emailOk : Nat → Bool) {i : Nat} :
    ∀ (l : List (Subscription × Event)) (db : DB), EmailMarked i db →
      EmailMarked i (runEmailBatch now emailOk db l).1
  | [], _, h => h
  | (sub, ev) :: rest, db, h => by
    simp only [runEmailBatch]
    by_cases hc : emailOk sub.id = true
    · simp only [hc, if_true]
      exact emailMarked_batch now emailOk rest _ (emailMarked_mark db sub.id now h)
    · simp only [hc, Bool.false_eq_true, if_false]
      exact emailMarked_batch now emailOk rest _ h

theorem pushMarked_batch (cfg : Config) (now : Int) (pushOk : Nat → Bool) {i : Nat} :
    ∀ (l : List (PushSubscription × Event)) (db : DB), PushMarked i db →
      PushMarked i (runPushBatch cfg now pushOk db l).1
  | [], _, h => h
  | (sub, ev) :: rest, db, h => by
    simp only [runPushBatch]
    cases hc : sendPush cfg (pushOk sub.id) with
    | ok _ => exact pushMarked_batch cfg now pushOk rest _ (pushMarked_mark db sub.id now h)
    | error _ => exact pushMarked_batch cfg now pushOk rest _ h

theorem emailMarked_of_sent (now : Int) (emailOk : Nat → Bool) {i : Nat} :
    ∀ (l : List (Subscription × Event)) (db : DB),
      (⟨i, SendStatus.sent⟩ : SendResult) ∈ (runEmailBatch now emailOk db l).2.1 →
      EmailMarked i (runEmailBatch now emailOk db l).1
  | [], db, h => by simp [runEmailBatch] at h
  | (sub, ev) :: rest, db, h => by
    simp only [runEmailBatch] at h ⊢
    by_cases hc : emailOk sub.id = true
    · simp only [hc, if_true] at h ⊢
      rcases List.mem_cons.mp h with hhead | htail
      · have hi : i = sub.id := by
          have := congrArg SendResult.id hhead
          simpa using this
        subst hi
        exact emailMarked_batch now emailOk rest _ (emailMarked_mark_self db sub.id now)
      · exact emailMarked_of_sent now emailOk rest _ htail
    · simp only [hc, Bool.false_eq_true, if_false] at h ⊢
      rcases List.mem_cons.mp h with hhead | htail
      · exact absurd (congrArg SendResult.status hhead) (by simp)
      · exact emailMarked_of_sent now emailOk rest _ htail

theorem pushMarked_of_sent (cfg : Config) (now : Int) (pushOk : Nat → Bool) {i : Nat} :
    ∀ (l : List (PushSubscription × Event)) (db : DB),
      (⟨i, SendStatus.sent⟩ : SendResult) ∈ (runPushBatch cfg now pushOk db l).2.1 →
      PushMarked i (runPushBatch cfg now pushOk db l).1
  | [], db, h => by simp [runPushBatch] at h
  | (sub, ev) :: rest, db, h => by
    simp only [runPushBatch] at h ⊢
    cases hc : sendPush cfg (pushOk sub.id) with
    | ok u =>
      rw [hc] at h
      rcases List.mem_cons.mp h with hhead | htail
      · have hi : i = sub.id := by
          have := congrArg SendResult.id hhead
          simpa using this
        subst hi
        exact pushMarked_batch cfg now pushOk rest _ (pushMarked_mark_self db sub.id now)
      · exact pushMarked_of_sent cfg now pushOk rest _ htail
    | error msg =>
      rw [hc] at h
      rcases List.mem_cons.mp h with hhead | htail
      · exact absurd (congrArg SendResult.status hhead) (by simp)
      · exact pushMarked_of_sent cfg now pushOk rest _ htail

theorem emailMarked_congr {i : Nat} {d1 d2 : DB}
    (h : d1.subscriptions = d2.subscriptions) (hm : EmailMarked i d2) :
    EmailMarked i d1 := by
  intro s hs hid
  rw [h] at hs
  exact hm s hs hid

theorem pushMarked_congr {i : Nat} {d1 d2 : DB}
    (h : d1.pushSubscriptions = d2.pushSubscriptions) (hm : PushMarked i d2) :
    PushMarked i d1 := by
  intro s hs hid
  rw [h] at hs
  exact hm s hs hid

theorem dueEmail_id_ne_of_marked {now : Int} {db : DB} {i : Nat}
    (h : EmailMarked i db) : ∀ p ∈ dueEmail now db, p.1.id ≠ i := by
  intro p hp hip
  obtain ⟨hmem, hnot, _⟩ := dueEmail_mem hp
  have := h p.1 hmem hip
  rw [hnot] at this
  exact Bool.false_ne_true this

theorem duePush_id_ne_of_marked {now : Int} {db : DB} {i : Nat}
    (h : PushMarked i db) : ∀ p ∈ duePush now db, p.1.id ≠ i := by
  intro p hp hip
  obtain ⟨hmem, hnot, _⟩ := duePush_mem hp
  have := h p.1 hmem hip
  rw [hnot] at this
  exact Bool.false_ne_true this

/-! ### Claim theorems (third group) -/

/-- C6: a run over a store containing a subscription whose referenced
event is gone still completes (the route answers with its counts), and
the orphaned subscription contributes to neither `sent` nor `failed`:
no result record carries its id. -/
theorem orphan_excluded {cfg : Config} {a : Option String} (now : Int)
    (emailOk pushOk : Nat → Bool) (db : DB) (s : Subscription)
    (hcfg : (truthy cfg.cronSecret && truthy cfg.sendgridKey && truthy cfg.fromEmail) = true)
    (hauth : checkAuth cfg a = true)
    (hmem : s ∈ db.subscriptions)
    (horphan : db.events.find? (fun e => e.id == s.eventId) = none)
    (huniq : ∀ s' ∈ db.subscriptions, s'.id = s.id → s' = s) :
    ∃ er pr ems pps db',
      runOnce cfg a now emailOk pushOk db = RunOutcome.ok er pr ems pps db' ∧
      ∀ r ∈ er, r.id ≠ s.id := by
  refine ⟨_, _, _, _, _, runOnce_ok_of_guards hcfg hauth now emailOk pushOk db, ?_⟩
  intro r hr hrid
  have hr' : r ∈ (runEmailBatch now emailOk db (dueEmail now db)).2.1 := hr
  obtain ⟨p, hp, hpid⟩ := emailResult_ids now emailOk _ _ r hr'
  obtain ⟨hpmem, _, hfind⟩ := dueEmail_mem hp
  have hps : p.1 = s := huniq p.1 hpmem (by rw [hpid, hrid])
  rw [hps, horphan] at hfind
  exact Option.noConfusion hfind

def dbOrphan : DB :=
  { events := [], subscriptions := [subA], pushSubscriptions := [] }

/-- Witness for C6 at a store whose only subscription is orphaned. -/
theorem orphan_excluded_witness :
    ∃ er pr ems pps db',
      runOnce cfgGood (some "Bearer s") 0 (fun _ => true) (fun _ => true) dbOrphan =
        RunOutcome.ok er pr ems pps db' ∧
      ∀ r ∈ er, r.id ≠ subA.id :=
  orphan_excluded 0 (fun _ => true) (fun _ => true) dbOrphan subA
    (by decide) (by decide) (by decide) (by decide) (by decide)

/-- C2: a second `runOnce` at the same instant with no intervening
state change double-sends nothing — each subscription the first run
delivered is flagged `notified` in the state the first run leaves
behind, so the second run's `notified: false` query excludes it: no
result record of the second run carries its id, on either channel. -/
theorem runOnce_no_double_send {cfg : Config} {a : Option String} {now : Int}
    {emailOk pushOk : Nat → Bool} {db : DB}
    {er pr : List SendResult} {ems : List EmailMessage} {pps : List PushPayload} {db1 : DB}
    {er2 pr2 : List SendResult} {ems2 : List EmailMessage} {pps2 : List PushPayload} {db2 : DB}
    (h1 : runOnce cfg a now emailOk pushOk db = RunOutcome.ok er pr ems pps db1)
    (h2 : runOnce cfg a now emailOk pushOk db1 = RunOutcome.ok er2 pr2 ems2 pps2 db2)
    (i : Nat) :
    ((⟨i, SendStatus.sent⟩ : SendResult) ∈ er →
      EmailMarked i db1 ∧ ∀ r ∈ er2, r.id ≠ i) ∧
    ((⟨i, SendStatus.sent⟩ : SendResult) ∈ pr →
      PushMarked i db1 ∧ ∀ r ∈ pr2, r.id ≠ i) := by
  obtain ⟨her, hpr, hdb1⟩ := runOnce_ok_inv h1
  obtain ⟨her2, hpr2, _⟩ := runOnce_ok_inv h2
  rw [dispatch_components] at her hpr hdb1 her2 hpr2
  dsimp only at her hpr hdb1 her2 hpr2
  constructor
  · intro hmem
    rw [her] at hmem
    have hm : EmailMarked i (runEmailBatch now emailOk db (dueEmail now db)).1 :=
      emailMarked_of_sent now emailOk _ _ hmem
    have hm1 : EmailMarked i db1 := by
      refine emailMarked_congr ?_ hm
      rw [hdb1]
      exact runPushBatch_subscriptions cfg now pushOk _ _
    refine ⟨hm1, ?_⟩
    intro r hr hri
    rw [her2] at hr
    obtain ⟨p, hp, hpid⟩ := emailResult_ids now emailOk _ _ r hr
    exact dueEmail_id_ne_of_marked hm1 p hp (hpid.trans hri)
  · intro hmem
    rw [hpr] at hmem
    have hm : PushMarked i
        (runPushBatch cfg now pushOk (runEmailBatch now emailOk db (dueEmail now db)).1
          (duePush now db)).1 :=
      pushMarked_of_sent cfg now pushOk _ _ hmem
    have hm1 : PushMarked i db1 := by
      rw [hdb1]
      exact hm
    refine ⟨hm1, ?_⟩
    intro r hr hri
    rw [hpr2] at hr
    obtain ⟨p, hp, hpid⟩ := pushResult_ids cfg now pushOk _ _ r hr
    exact duePush_id_ne_of_marked hm1 p hp (hpid.trans hri)

def dbC2 : DB :=
  { events := [evA], subscriptions := [subA], pushSubscriptions := [] }

/-- Witness for C2: one due subscription, delivered on the first run at
`now = 0`; the immediate second run reports no result for it. -/
theorem runOnce_no_double_send_witness :
    ((⟨1, SendStatus.sent⟩ : SendResult) ∈ [(⟨1, SendStatus.sent⟩ : SendResult)] →
      EmailMarked 1 (markEmailNotified dbC2 1 0) ∧
      ∀ r ∈ ([] : List SendResult), r.id ≠ 1) ∧
    ((⟨1, SendStatus.sent⟩ : SendResult) ∈ ([] : List SendResult) →
      PushMarked 1 (markEmailNotified dbC2 1 0) ∧
      ∀ r ∈ ([] : List SendResult), r.id ≠ 1) :=
  @runOnce_no_double_send cfgGood (some "Bearer s") 0 (fun _ => true) (fun _ => true) dbC2
    [⟨1, SendStatus.sent⟩] [] [buildMessage "a@b" evA 60] [] (markEmailNotified dbC2 1 0)
    [] [] [] [] (markEmailNotified dbC2 1 0) (by rfl) (by rfl) 1

/-- C3: with exactly two due email subscriptions, the first delivery
throwing and the second succeeding, the run completes normally with
results `failed, sent` — counted as `sent = 1`, `failed = 1` — only the
second subscription's row is flipped to `notified = true` (with a
timestamp), and the failed one is left `notified = false`. -/
theorem failure_isolation {cfg : Config} {a : Option String} (now : Int)
    (emailOk pushOk : Nat → Bool) (db : DB) (s1 s2 : Subscription) (e1 e2 : Event)
    (hcfg : (truthy cfg.cronSecret && truthy cfg.sendgridKey && truthy cfg.fromEmail) = true)
    (hauth : checkAuth cfg a = true)
    (hdue : dueEmail now db = [(s1, e1), (s2, e2)])
    (hpdue : duePush now db = [])
    (h1 : emailOk s1.id = false) (h2 : emailOk s2.id = true)
    (hne : s1.id ≠ s2.id) :
    runOnce cfg a now emailOk pushOk db =
      RunOutcome.ok [⟨s1.id, SendStatus.failed⟩, ⟨s2.id, SendStatus.sent⟩] []
        [buildMessage s1.email e1
           (effectiveOffset s1.customOffsetMinutes e1.reminderOffsetMinutes),
         buildMessage s2.email e2
           (effectiveOffset s2.customOffsetMinutes e2.reminderOffsetMinutes)]
        [] (markEmailNotified db s2.id now) ∧
    sentCount [⟨s1.id, SendStatus.failed⟩, ⟨s2.id, SendStatus.sent⟩] [] = 1 ∧
    failedCount [⟨s1.id, SendStatus.failed⟩, ⟨s2.id, SendStatus.sent⟩] [] = 1 ∧
    s1 ∈ (markEmailNotified db s2.id now).subscriptions ∧
    s1.notified = false ∧
    (∀ s ∈ (markEmailNotified db s2.id now).subscriptions,
      s.id = s2.id → s.notified = true ∧ s.notifiedAt = some now) := by
  have hs1 : (s1, e1) ∈ dueEmail now db := by
    rw [hdue]
    exact List.mem_cons_self _ _
  obtain ⟨hs1mem, hs1not, _⟩ := dueEmail_mem hs1
  refine ⟨?_, by simp [sentCount], by simp [failedCount], ?_, hs1not, ?_⟩
  · rw [runOnce_ok_of_guards hcfg hauth now emailOk pushOk db, dispatch_components]
    rw [hdue, hpdue]
    simp [runEmailBatch, runPushBatch, h1, h2, effectiveOffset]
  · simp only [markEmailNotified]
    refine List.mem_map.mpr ⟨s1, hs1mem, ?_⟩
    simp [beq_eq_false_iff_ne.mpr hne]
  · intro s hs hid
    simp only [markEmailNotified, List.mem_map] at hs
    obtain ⟨x, _, hfx⟩ := hs
    by_cases hx2 : x.id = s2.id
    · rw [← hfx]
      simp [hx2]
    · have hbeq : (x.id == s2.id) = false := beq_eq_false_iff_ne.mpr hx2
      rw [← hfx] at hid
      simp [hbeq] at hid
      exact absurd hid hx2

def dbTwo : DB :=
  { events := [evA], subscriptions := [subA, subB], pushSubscriptions := [] }

/-- Witness for C3: two due subscriptions at `now = 0`; delivery
succeeds only for id 2. -/
theorem failure_isolation_witness :
    runOnce cfgGood (some "Bearer s") 0 (fun i => i == 2) (fun _ => true) dbTwo =
      RunOutcome.ok [⟨subA.id, SendStatus.failed⟩, ⟨subB.id, SendStatus.sent⟩] []
        [buildMessage subA.email evA
           (effectiveOffset subA.customOffsetMinutes evA.reminderOffsetMinutes),
         buildMessage subB.email evA
           (effectiveOffset subB.customOffsetMinutes evA.reminderOffsetMinutes)]
        [] (markEmailNotified dbTwo subB.id 0) ∧
    sentCount [⟨subA.id, SendStatus.failed⟩, ⟨subB.id, SendStatus.sent⟩] [] = 1 ∧
    failedCount [⟨subA.id, SendStatus.failed⟩, ⟨subB.id, SendStatus.sent⟩] [] = 1 ∧
    subA ∈ (markEmailNotified dbTwo subB.id 0).subscriptions ∧
    subA.notified = false ∧
    (∀ s ∈ (markEmailNotified dbTwo subB.id 0).subscriptions,
      s.id = subB.id → s.notified = true ∧ s.notifiedAt = some 0) :=
  failure_isolation 0 (fun i => i == 2) (fun _ => true) dbTwo subA subB evA evA
    (by decide) (by decide) (by decide) (by decide) (by decide) (by decide) (by decide)

/-! ### Invariant-preservation lemmas for C9 -/

theorem inv_mark_email {db : DB} (h : SubscriptionInvariant db) (i : Nat) (t : Int) :
    SubscriptionInvariant (markEmailNotified db i t) := by
  constructor
  · intro s hs hn
    simp only [markEmailNotified, List.mem_map] at hs
    obtain ⟨x, hx, hfx⟩ := hs
    by_cases hid : x.id = i
    · rw [← hfx]
      simp [hid]
    · have hbeq : (x.id == i) = false := beq_eq_false_iff_ne.mpr hid
      rw [← hfx] at hn ⊢
      simp only [hbeq, Bool.false_eq_true, if_false] at hn ⊢
      exact h.1 x hx hn
  · intro s hs hn
    exact h.2 s hs hn

theorem inv_mark_push {db : DB} (h : SubscriptionInvariant db) (i : Nat) (t : Int) :
    SubscriptionInvariant (markPushNotified db i t) := by
  constructor
  · intro s hs hn
    exact h.1 s hs hn
  · intro s hs hn
    simp only [markPushNotified, List.mem_map] at hs
    obtain ⟨x, hx, hfx⟩ := hs
    by_cases hid : x.id = i
    · rw [← hfx]
      simp [hid]
    · have hbeq : (x.id == i) = false := beq_eq_false_iff_ne.mpr hid
      rw [← hfx] at hn ⊢
      simp only [hbeq, Bool.false_eq_true, if_false] at hn ⊢
      exact h.2 x hx hn

theorem inv_runEmailBatch (now : Int) (emailOk : Nat → Bool) :
    ∀ (l : List (Subscription × Event)) (db : DB), SubscriptionInvariant db →
      SubscriptionInvariant (runEmailBatch now emailOk db l).1
  | [], _, h => h
  | (sub, ev) :: rest, db, h => by
    simp only [runEmailBatch]
    by_cases hc : emailOk sub.id = true
    · simp only [hc, if_true]
      exact inv_runEmailBatch now emailOk rest _ (inv_mark_email h sub.id now)
    · simp only [hc, Bool.false_eq_true, if_false]
      exact inv_runEmailBatch now emailOk rest _ h

theorem inv_runPushBatch (cfg : Config) (now : Int) (pushOk : Nat → Bool) :
    ∀ (l : List (PushSubscription × Event)) (db : DB), SubscriptionInvariant db →
      SubscriptionInvariant (runPushBatch cfg now pushOk db l).1
  | [], _, h => h
  | (sub, ev) :: rest, db, h => by
    simp only [runPushBatch]
    cases hc : sendPush cfg (pushOk sub.id) with
    | ok _ => exact inv_runPushBatch cfg now pushOk rest _ (inv_mark_push h sub.id now)
    | error _ => exact inv_runPushBatch cfg now pushOk rest _ h

theorem inv_upsertEmail {db : DB} (h : SubscriptionInvariant db) (f : Nat)
    (em eid : String) (c : Option Int) :
    SubscriptionInvariant (upsertEmailSubscription db f em eid c) := by
  unfold upsertEmailSubscription
  split
  · constructor
    · intro s hs hn
      simp only [List.mem_map] at hs
      obtain ⟨x, hx, hfx⟩ := hs
      by_cases hk : (x.email == em && x.eventId == eid) = true
      · rw [← hfx] at hn
        simp [hk] at hn
      · have hk' : (x.email == em && x.eventId == eid) = false := by
          simpa using hk
        rw [← hfx] at hn ⊢
        simp only [hk', Bool.false_eq_true, if_false] at hn ⊢
        exact h.1 x hx hn
    · exact h.2
  · constructor
    · intro s hs hn
      rcases List.mem_append.mp hs with hmem | hmem
      · exact h.1 s hmem hn
      · simp only [List.mem_singleton] at hmem
        rw [hmem] at hn
        simp at hn
    · exact h.2

theorem inv_upsertPush {db : DB} (h : SubscriptionInvariant db) (f : Nat)
    (ps : PushSubPayload) (eid : String) (c : Option Int) :
    SubscriptionInvariant (upsertPushSubscription db f ps eid c) := by
  unfold upsertPushSubscription
  split
  · constructor
    · exact h.1
    · intro s hs hn
      simp only [List.mem_map] at hs
      obtain ⟨x, hx, hfx⟩ := hs
      by_cases hk : (x.endpoint == ps.endpoint && x.eventId == eid) = true
      · rw [← hfx] at hn
        simp [hk] at hn
      · have hk' : (x.endpoint == ps.endpoint && x.eventId == eid) = false := by
          simpa using hk
        rw [← hfx] at hn ⊢
        simp only [hk', Bool.false_eq_true, if_false] at hn ⊢
        exact h.2 x hx hn
  · constructor
    · exact h.1
    · intro s hs hn
      rcases List.mem_append.mp hs with hmem | hmem
      · exact h.2 s hmem hn
      · simp only [List.mem_singleton] at hmem
        rw [hmem] at hn
        simp at hn

theorem inv_subscribePost (db : DB) (h : SubscriptionInvariant db)
    (f1 f2 : Nat) (p : SubscribePayload) :
    SubscriptionInvariant (subscribePost db f1 f2 p).2 := by
  unfold subscribePost
  cases he : truthy p.eventId with
  | false =>
    simp only [he, Bool.not_false, if_true]
    exact h
  | true =>
    simp only [he, Bool.not_true, Bool.false_eq_true, if_false]
    cases hf : db.events.find? (fun e => e.id == p.eventId.getD "") with
    | none =>
      simp only [hf]
      exact h
    | some ev =>
      simp only [hf]
      cases hm : truthy p.email with
      | false =>
        cases hp : p.pushSubscription with
        | none =>
          simp only [hm, hp, Bool.false_eq_true, if_false]
          exact h
        | some ps =>
          simp only [hm, hp, Bool.false_eq_true, if_false]
          exact inv_upsertPush h f2 ps _ _
      | true =>
        cases hp : p.pushSubscription with
        | none =>
          simp only [hm, hp, if_true]
          exact inv_upsertEmail h f1 _ _ _
        | some ps =>
          simp only [hm, hp, if_true]
          exact inv_upsertPush (inv_upsertEmail h f1 _ _ _) f2 ps _ _

theorem inv_subscribeDelete (db : DB) (h : SubscriptionInvariant db)
    (a : Option String) (p : SubscribePayload) :
    SubscriptionInvariant (subscribeDelete a p db).2 := by
  unfold subscribeDelete
  cases he : truthy p.eventId with
  | false =>
    simp only [he, Bool.not_false, if_true]
    exact h
  | true =>
    simp only [he, Bool.not_true, Bool.false_eq_true, if_false]
    have hdb1 : SubscriptionInvariant
        (if truthy p.email = true then
          { db with subscriptions :=
              db.subscriptions.filter fun s =>
                !(s.email == p.email.getD "" && s.eventId == p.eventId.getD "") }
        else db) := by
      split
      · exact ⟨fun s hs hn => h.1 s (List.mem_of_mem_filter hs) hn, h.2⟩
      · exact h
    cases hp : p.pushSubscription with
    | none =>
      simp only [hp]
      exact hdb1
    | some ps =>
      simp only [hp]
      split
      · exact ⟨hdb1.1, fun s hs hn => hdb1.2 s (List.mem_of_mem_filter hs) hn⟩
      · exact hdb1

/-- C9: the invariant "notified implies a notification timestamp is
set" is preserved by every subscription-mutating operation: the
dispatcher run (which sets `notified` and `notifiedAt` together on
success), the re-subscription upsert (which resets `notified` to false
and clears `notifiedAt` together), and the cancellation delete. -/
theorem notified_invariant_preserved (db : DB) (h : SubscriptionInvariant db)
    (cfg : Config) (a : Option String) (now : Int) (emailOk pushOk : Nat → Bool)
    (f1 f2 : Nat) (p : SubscribePayload) (a2 : Option String) (p2 : SubscribePayload) :
    SubscriptionInvariant (dbOf (runOnce cfg a now emailOk pushOk db)) ∧
    SubscriptionInvariant (subscribePost db f1 f2 p).2 ∧
    SubscriptionInvariant (subscribeDelete a2 p2 db).2 := by
  refine ⟨?_, inv_subscribePost db h f1 f2 p, inv_subscribeDelete db h a2 p2⟩
  unfold runOnce
  split
  · exact h
  · split
    · exact h
    · show SubscriptionInvariant
        (runPushBatch cfg now pushOk (runEmailBatch now emailOk db (dueEmail now db)).1
          (duePush now db)).1
      exact inv_runPushBatch cfg now pushOk _ _
        (inv_runEmailBatch now emailOk _ _ h)

def payloadA : SubscribePayload :=
  { email := some "a@b", eventId := some "e1", customOffsetMinutes := some 30,
    pushSubscription := none }

/-- Witness for C9 at a concrete store, run, upsert and delete. -/
theorem notified_invariant_preserved_witness :
    SubscriptionInvariant
      (dbOf (runOnce cfgGood (some "Bearer s") 0 (fun _ => true) (fun _ => true) dbTwo)) ∧
    SubscriptionInvariant (subscribePost dbTwo 5 6 payloadA).2 ∧
    SubscriptionInvariant (subscribeDelete none payloadA dbTwo).2 :=
  notified_invariant_preserved dbTwo ⟨by decide, by decide⟩ cfgGood (some "Bearer s") 0
    (fun _ => true) (fun _ => true) 5 6 payloadA none payloadA

end DebateCalendar
